import Mathlib

/-!
Shallow embedding of the `Stypox/arg-parser` C++ library.

The repository ships several historical variants of the same design:
* `src/include/stypox/argparser.hpp`, first document (the header-only, tuple
  based variant: `OptionBase`, `SwitchOption`, `ManualOption`, `Option`,
  `argumentFromString`, `ArgParser`) — embedded here in namespace `Hpp`;
* `src/include/stypox/argparser.hpp`, third document (the `argparser.h`
  variant with `Option<T>` storing a default value, `operator==`,
  `operator=`, `checkValidity`, `reset`, and `BasicArgParser` with per-kind
  getters) — embedded in namespace `H`;
* `src/src/argparser.h` (the early variant whose four getters all read
  `m_floatArgs`) — embedded in namespace `Src`.

Tokens and spellings are lists of characters.  Machine integers are `Int`/`Nat`
with the explicit bounds of `std::numeric_limits`; `long double` parsing by
`strtold` is modelled exactly over `ℚ` (the concrete fragments appearing in the
claims are exactly representable, so rounding is immaterial; hexadecimal,
infinity and NaN spellings of `strtold` are outside the model, as no claim
touches them).  Exceptions become `Except`; a member function that mutates the
object before throwing returns the mutated state alongside the error, exactly
mirroring the order of side effects in the C++ source.
-/

namespace ArgParserModel

/-- The error taxonomy of §7 of the spec: each constructor stands for one of
the `std::runtime_error` / `std::out_of_range` conditions thrown by the code. -/
inductive Err where
  | unknownArgument
  | repeatedOption
  | missingValue
  | syntaxError
  | rangeError
  | customConversion
  | requiredOption
  | invalidValue
  | emptyArgumentList
  | nameNotFound
  deriving DecidableEq, Repr

instance {ε α : Type} [DecidableEq ε] [DecidableEq α] : DecidableEq (Except ε α)
  | .error e, .error f =>
    if h : e = f then isTrue (by rw [h]) else isFalse (by intro g; cases g; exact h rfl)
  | .error _, .ok _ => isFalse (by intro g; cases g)
  | .ok _, .error _ => isFalse (by intro g; cases g)
  | .ok a, .ok b =>
    if h : a = b then isTrue (by rw [h]) else isFalse (by intro g; cases g; exact h rfl)

/-- `isspace` of the C locale: space, `\t`, `\n`, `\v`, `\f`, `\r`. -/
def isCSpace (c : Char) : Bool :=
  c == ' ' || c == '\t' || c == '\n' || c.toNat == 11 || c.toNat == 12 || c == '\r'

/-- The longest leading run of decimal digits. -/
def takeDigits (cs : List Char) : List Char :=
  cs.takeWhile (fun c => c.isDigit)

/-- Value of a digit string, most significant digit first. -/
def digitsToNat (ds : List Char) : ℕ :=
  ds.foldl (fun acc c => acc * 10 + (c.toNat - 48)) 0

/-- `LLONG_MAX` (64-bit `long long`). -/
def llMax : ℤ := 2 ^ 63 - 1
/-- `LLONG_MIN`. -/
def llMin : ℤ := -(2 ^ 63)
/-- `ULLONG_MAX`. -/
def ullMax : ℕ := 2 ^ 64 - 1

/-- The exact numeric scan shared by `strtoll` and `std::stoll`: skip C
whitespace, optional sign, decimal digits; returns the exact (unclamped)
value and the number of consumed characters (`end - p`), which is `0` when no
digits were found. -/
def strtollRaw (cs : List Char) : ℤ × ℕ :=
  let ws := cs.takeWhile isCSpace
  let rest := cs.drop ws.length
  let signed : ℤ × List Char × ℕ :=
    match rest with
    | '-' :: t => (-1, t, 1)
    | '+' :: t => (1, t, 1)
    | _ => (1, rest, 0)
  let ds := takeDigits signed.2.1
  if ds.isEmpty then (0, 0)
  else (signed.1 * (digitsToNat ds : ℤ), ws.length + signed.2.2 + ds.length)

/-- `std::strtoll(p, &end, 10)`: the scan of `strtollRaw`, with the result
clamped to the `long long` range on overflow (the caller in
`argumentFromString` never inspects `errno`, so the clamped value is all it
sees). -/
def strtoll (cs : List Char) : ℤ × ℕ :=
  let r := strtollRaw cs
  (if r.1 < llMin then llMin else if r.1 > llMax then llMax else r.1, r.2)

/-- `std::strtoull(p, &end, 10)` on input already known not to start with `-`
(the unsigned branch of `argumentFromString` rejects `-` before the call):
skip C whitespace, optional `+`, decimal digits; clamped to `ULLONG_MAX`. -/
def strtoull (cs : List Char) : ℕ × ℕ :=
  let ws := cs.takeWhile isCSpace
  let rest := cs.drop ws.length
  let signed : List Char × ℕ :=
    match rest with
    | '+' :: t => (t, 1)
    | _ => (rest, 0)
  let ds := takeDigits signed.1
  if ds.isEmpty then (0, 0)
  else
    let v := digitsToNat ds
    let clamped := if v > ullMax then ullMax else v
    (clamped, ws.length + signed.2 + ds.length)

/-- The exact value of a decimal floating literal, kept as the fraction
`num / 10 ^ scale`.  The `long double` values handled by the library's
floating path are modelled by these exact decimal fractions (every concrete
literal in the claims is exactly representable); ordering is the rational
ordering, computed by cross-multiplication. -/
structure Dec where
  num : ℤ
  scale : ℕ
  deriving DecidableEq, Repr

/-- The rational value of a `Dec`. -/
def Dec.toRat (d : Dec) : ℚ := Rat.divInt d.num ((10 : ℤ) ^ d.scale)

/-- The strict order on the values of `Dec`, by cross-multiplication. -/
def Dec.blt (a b : Dec) : Bool :=
  a.num * (10 : ℤ) ^ b.scale < b.num * (10 : ℤ) ^ a.scale

/-- `Dec.blt` decides the rational order of the represented values. -/
theorem Dec.blt_iff (a b : Dec) : a.blt b = true ↔ a.toRat < b.toRat := by
  rw [Dec.blt, Dec.toRat, Dec.toRat, decide_eq_true_eq]
  nth_rewrite 2 [lt_iff_not_le]
  rw [Rat.divInt_le_divInt (by positivity) (by positivity), not_le]

/-- Multiplication of a `Dec` by `10 ^ e`, the effect of the literal's
exponent part. -/
def Dec.mulPow10 (d : Dec) (e : ℤ) : Dec :=
  if 0 ≤ e then { d with num := d.num * (10 : ℤ) ^ e.toNat }
  else { d with scale := d.scale + (-e).toNat }

/-- Mantissa of a decimal floating literal: `digits [. digits]` or `. digits`,
requiring at least one digit; returns the exact value (as numerator over
`10 ^ scale`) and the consumed length. -/
def parseMantissa (cs : List Char) : Option (Dec × ℕ) :=
  let intPart := takeDigits cs
  let rest := cs.drop intPart.length
  match rest with
  | '.' :: t =>
    let fracPart := takeDigits t
    if intPart.isEmpty && fracPart.isEmpty then none
    else some (⟨(digitsToNat intPart * 10 ^ fracPart.length + digitsToNat fracPart : ℕ),
                fracPart.length⟩,
               intPart.length + 1 + fracPart.length)
  | _ =>
    if intPart.isEmpty then none
    else some (⟨(digitsToNat intPart : ℕ), 0⟩, intPart.length)

/-- Optional exponent part `e[sign]digits` of a decimal floating literal;
consumed only when at least one digit follows, as in `strtold`. -/
def parseExponent (cs : List Char) : ℤ × ℕ :=
  match cs with
  | c :: t =>
    if c == 'e' || c == 'E' then
      let signed : ℤ × List Char × ℕ :=
        match t with
        | '-' :: u => (-1, u, 1)
        | '+' :: u => (1, u, 1)
        | _ => (1, t, 0)
      let ds := takeDigits signed.2.1
      if ds.isEmpty then (0, 0)
      else (signed.1 * (digitsToNat ds : ℤ), 1 + signed.2.2 + ds.length)
    else (0, 0)
  | [] => (0, 0)

/-- `std::strtold(p, &end)` on decimal literals, exact: skip C whitespace,
optional sign, mantissa, optional exponent; returns the value and the number
of consumed characters (`0`, value `0`, when no conversion could be
performed). -/
def strtold (cs : List Char) : Dec × ℕ :=
  let ws := cs.takeWhile isCSpace
  let rest := cs.drop ws.length
  let signed : ℤ × List Char × ℕ :=
    match rest with
    | '-' :: t => (-1, t, 1)
    | '+' :: t => (1, t, 1)
    | _ => (1, rest, 0)
  match parseMantissa signed.2.1 with
  | none => (⟨0, 0⟩, 0)
  | some (m, mLen) =>
    let e := parseExponent (signed.2.1.drop mLen)
    (Dec.mulPow10 ⟨signed.1 * m.num, m.scale⟩ e.1, ws.length + signed.2.2 + mLen + e.2)

namespace Hpp

/-- `stypox::argumentFromString<T>` for signed integral `T` with range
`[lo, hi]` (`std::numeric_limits<T>::min/max`), from
`src/include/stypox/argparser.hpp` lines 202-209: `strtoll`, then the
"all characters consumed" check (`SyntaxError`), then the range check
(`RangeError`). -/
def argumentFromStringSigned (lo hi : ℤ) (argValue : List Char) : Except Err ℤ :=
  let r := strtoll argValue
  if r.2 ≠ argValue.length then .error .syntaxError
  else if r.1 < lo || r.1 > hi then .error .rangeError
  else .ok r.1

/-- `stypox::argumentFromString<T>` for unsigned integral `T` with range
`[lo, hi]`, from `src/include/stypox/argparser.hpp` lines 210-222: skip
whitespace, reject a leading `-` with `out_of_range` (`RangeError`) before any
conversion, then `strtoull`, the consumption check, and the range check. -/
def argumentFromStringUnsigned (lo hi : ℕ) (argValue : List Char) : Except Err ℕ :=
  let ws := argValue.takeWhile isCSpace
  let rest := argValue.drop ws.length
  match rest with
  | '-' :: _ => .error .rangeError
  | _ =>
    let r := strtoull rest
    if ws.length + r.2 ≠ argValue.length then .error .syntaxError
    else if r.1 < lo || r.1 > hi then .error .rangeError
    else .ok r.1

/-- `stypox::argumentFromString<T>` for floating-point `T`, from
`src/include/stypox/argparser.hpp` lines 235-254: `strtold`, the consumption
check (`SyntaxError`), then
`result < numeric_limits<T>::min() || result > numeric_limits<T>::max()`
(`RangeError`).  For floating types `numeric_limits<T>::min()` is the smallest
positive normal value, so `minPos` is that bound, not the lowest value. -/
def argumentFromStringFloat (minPos maxFin : Dec) (argValue : List Char) : Except Err Dec :=
  let r := strtold argValue
  if r.2 ≠ argValue.length then .error .syntaxError
  else if Dec.blt r.1 minPos || Dec.blt maxFin r.1 then .error .rangeError
  else .ok r.1

/-- `std::numeric_limits<float>::min()`, the smallest positive normal
single-precision value: `2 ^ (-126) = 5 ^ 126 / 10 ^ 126`. -/
def fltMinPos : Dec := ⟨5 ^ 126, 126⟩

/-- `std::numeric_limits<float>::max()`, `(2 ^ 24 - 1) * 2 ^ 104`. -/
def fltMax : Dec := ⟨(2 ^ 24 - 1) * 2 ^ 104, 0⟩

/-- `INT_MIN` for the 32-bit `int` instantiation. -/
def intMin : ℤ := -(2 ^ 31)
/-- `INT_MAX`. -/
def intMax : ℤ := 2 ^ 31 - 1

/-- The mutable part of an option of the header-only variant: the inherited
`m_alreadySeen` flag of `OptionBase` and the external output variable
`m_output` bound by reference at construction. -/
structure OptState (α : Type) where
  alreadySeen : Bool
  output : α
  deriving DecidableEq, Repr

/-- `OptionBase::reset` (`src/include/stypox/argparser.hpp` lines 83-85): it
clears `m_alreadySeen` only; the output variable is not touched. -/
def reset (s : OptState α) : OptState α :=
  { s with alreadySeen := false }

/-- The matching lambda of `Option::assign` / `ManualOption::assign`
(lines 287-292 / 173-178): spelling `a` matches token `arg` when
`¬(arg.size() < a.size())` and `arg.substr(0, a.size()) == a`; `findIfGE`
is the `std::find_if` over the declared spellings, returning the first match. -/
def findIfGE (arguments : List (List Char)) (arg : List Char) : Option (List Char) :=
  arguments.find? (fun a => decide (a.length ≤ arg.length) && arg.take a.length == a)

/-- `SwitchOption::assign` (lines 134-143): exact membership of the token in
the spellings; on a match, `updateAlreadySeen` (throwing `RepeatedOptionError`
when the flag is already set) and then `m_output = m_valueWhenSet`.  The
returned state is the object's state after the call, also on the error path. -/
def switchAssign (arguments : List (List Char)) (valueWhenSet : α)
    (s : OptState α) (arg : List Char) : Except Err Bool × OptState α :=
  if arguments.contains arg then
    if s.alreadySeen then (.error .repeatedOption, s)
    else (.ok true, { alreadySeen := true, output := valueWhenSet })
  else (.ok false, s)

/-- `Option::assign` (lines 283-301): `find_if` over the spellings with the
`>=`-length prefix criterion; on a match, `updateAlreadySeen` and then
`m_output = argumentFromString<T>(arg.substr(found->size()), ...)`.  The seen
flag is set *before* the conversion runs, so a conversion error leaves the
flag set and the output unchanged. -/
def valueAssign (arguments : List (List Char)) (conv : List Char → Except Err α)
    (s : OptState α) (arg : List Char) : Except Err Bool × OptState α :=
  match findIfGE arguments arg with
  | none => (.ok false, s)
  | some sp =>
    if s.alreadySeen then (.error .repeatedOption, s)
    else
      match conv (arg.drop sp.length) with
      | .error e => (.error e, { s with alreadySeen := true })
      | .ok v => (.ok true, { alreadySeen := true, output := v })

/-- `ManualOption::assign` (lines 169-187): same matching as `Option::assign`;
the remainder is handed to the user-supplied `m_assignerFunctor`, whose own
failure (modelled as `Except.error`) propagates after the seen flag is set. -/
def manualAssign (arguments : List (List Char)) (functor : List Char → Except Err α)
    (s : OptState α) (arg : List Char) : Except Err Bool × OptState α :=
  match findIfGE arguments arg with
  | none => (.ok false, s)
  | some sp =>
    if s.alreadySeen then (.error .repeatedOption, s)
    else
      match functor (arg.drop sp.length) with
      | .error e => (.error e, { s with alreadySeen := true })
      | .ok v => (.ok true, { alreadySeen := true, output := v })

/-- `Option::checkValidity` (lines 303-316) together with the inherited
`OptionBase::checkValidity` (lines 87-90): `RequiredOptionError` when
`m_required && !m_alreadySeen`, then — unconditionally, seen or not — the
validity checker is applied to `m_output`, yielding `InvalidValueError` when
it returns `false`. -/
def checkValidity (required : Bool) (checker : α → Bool)
    (s : OptState α) : Except Err Unit :=
  if required && !s.alreadySeen then .error .requiredOption
  else if !(checker s.output) then .error .invalidValue
  else .ok ()

/-- One step of `ArgParser::parse` (lines 412-424) for a registry holding a
single value-bearing option: `m_doneAssigning = false`, then the option's
`assign`; an exception from `assign` propagates, and a token left unassigned
raises `Unknown argument`. -/
def parseTokens (arguments : List (List Char)) (conv : List Char → Except Err α)
    (s : OptState α) : List (List Char) → Except Err Unit × OptState α
  | [] => (.ok (), s)
  | t :: ts =>
    match valueAssign arguments conv s t with
    | (.ok true, s') => parseTokens arguments conv s' ts
    | (.ok false, s') => (.error .unknownArgument, s')
    | (.error e, s') => (.error e, s')

/-- `ArgParser::parse(first, last, firstArgumentIsExecutablePath)`
(lines 401-425), specialised to a registry with a single value-bearing
option: when the flag is set, an empty token list raises `out_of_range`
(`EmptyArgumentListError`) and otherwise the first token is stored away as the
executable name before scanning. -/
def parse (arguments : List (List Char)) (conv : List Char → Except Err α)
    (s : OptState α) (firstArgumentIsExecutablePath : Bool)
    (tokens : List (List Char)) : Except Err Unit × OptState α :=
  if firstArgumentIsExecutablePath then
    match tokens with
    | [] => (.error .emptyArgumentList, s)
    | _ :: ts => parseTokens arguments conv s ts
  else parseTokens arguments conv s tokens

end Hpp

namespace H

/-- `stypox::Option<T>` of the `argparser.h` variant that stores its default
(`src/include/stypox/argparser.hpp` lines 887-919): name, spellings,
validity checker, `m_required`, `m_defaultValue`, `m_value`, `m_alreadySeen`. -/
structure Opt (α : Type) where
  name : List Char
  arguments : List (List Char)
  validityChecker : α → Bool
  required : Bool
  defaultValue : α
  value : α
  alreadySeen : Bool

/-- The `Option<T>` constructor (lines 980-991): `m_required` is
`!defaultValue.has_value()`, the default slot and the current value are the
supplied default or the value-initialised `T{}` (`zero`). -/
def Opt.construct (name : List Char) (arguments : List (List Char))
    (defaultValue : Option α) (zero : α) (validityChecker : α → Bool) : Opt α :=
  { name := name
    arguments := arguments
    validityChecker := validityChecker
    required := !defaultValue.isSome
    defaultValue := defaultValue.getD zero
    value := defaultValue.getD zero
    alreadySeen := false }

/-- `Option<T>::operator==` for non-`bool` `T` (lines 993-1006): some spelling
`a` with `arg.size() >= a.size() && arg.substr(0, a.size()) == a`. -/
def matchesValue (arguments : List (List Char)) (arg : List Char) : Bool :=
  arguments.any (fun a => decide (a.length ≤ arg.length) && arg.take a.length == a)

/-- `Option<T>::operator==` for `T = bool` (lines 996-998): exact membership. -/
def matchesBool (arguments : List (List Char)) (arg : List Char) : Bool :=
  arguments.contains arg

/-- The value-extraction loop of `Option<T>::operator=` (lines 1018-1024):
the remainder after the first spelling that is *strictly* shorter than the
token and a prefix of it; `argValue` stays empty when no such spelling exists. -/
def extractValue (arguments : List (List Char)) (arg : List Char) : List Char :=
  match arguments.find? (fun a => decide (a.length < arg.length) && arg.take a.length == a) with
  | some a => arg.drop a.length
  | none => []

/-- `Option<T>::operator=` for non-`bool` `T` (lines 1007-1026 and the
per-type conversion that follows): the repeated check, `m_alreadySeen = true`,
value extraction, `MissingValueError` when the extracted `argValue` is empty,
otherwise the conversion `conv` (`std::stoll` / `std::stold` / verbatim text);
its error propagates after the seen flag was already set. -/
def Opt.assignValue (conv : List Char → Except Err α) (o : Opt α)
    (arg : List Char) : Except Err Unit × Opt α :=
  if o.alreadySeen then (.error .repeatedOption, o)
  else
    let o := { o with alreadySeen := true }
    let argValue := extractValue o.arguments arg
    if argValue.isEmpty then (.error .missingValue, o)
    else
      match conv argValue with
      | .error e => (.error e, o)
      | .ok v => (.ok (), { o with value := v })

/-- `Option<T>::operator=` for `T = bool` (lines 1014-1016): the repeated
check, then `m_value = true`. -/
def Opt.assignBool (o : Opt Bool) (_arg : List Char) : Except Err Unit × Opt Bool :=
  if o.alreadySeen then (.error .repeatedOption, o)
  else (.ok (), { o with alreadySeen := true, value := true })

/-- `Option<T>::checkValidity` (lines 1062-1082): `RequiredOptionError` when
`m_required && !m_alreadySeen`, then — regardless of the seen flag — the
validity checker is applied to `m_value`, yielding `InvalidValueError`. -/
def Opt.checkValidity (o : Opt α) : Except Err Unit :=
  if o.required && !o.alreadySeen then .error .requiredOption
  else if !(o.validityChecker o.value) then .error .invalidValue
  else .ok ()

/-- `Option<T>::reset` (lines 1083-1088): `m_value = m_defaultValue;
m_alreadySeen = false;`. -/
def Opt.reset (o : Opt α) : Opt α :=
  { o with value := o.defaultValue, alreadySeen := false }

/-- The integral conversion of `operator=` (lines 1029-1041) landing in an
unsigned destination of width `w` bits: `std::stoll` (throwing
`invalid_argument` when no digits, `out_of_range` beyond `long long`), the
full-consumption check, and then the C++ integral conversion
`m_value = result`, which for an unsigned `m_value` reduces the signed
`long long` result modulo `2^w`. -/
def uintConv (w : ℕ) (argValue : List Char) : Except Err ℕ :=
  let r := strtollRaw argValue
  if r.2 = 0 then .error .syntaxError
  else if r.1 < llMin || r.1 > llMax then .error .rangeError
  else if r.2 ≠ argValue.length then .error .syntaxError
  else .ok (r.1 % (2 ^ w : ℤ)).toNat

end H

namespace Src

/-- One entry of a per-kind option vector of `src/src/argparser.h`: the parts
of `Argument<T>` that its getters read (`name()` and `value()`). -/
structure Arg (α : Type) where
  name : List Char
  value : α
  deriving DecidableEq, Repr

/-- `BasicArgParser` of `src/src/argparser.h` (lines 50-87), instantiated as
`ArgParser = BasicArgParser<int, float, std::string>`: the four per-kind
vectors.  `float` values are carried exactly as `ℚ` (the getters only copy
or convert them, so no rounding arises in the modelled paths). -/
structure Parser where
  boolArgs : List (Arg Bool)
  intArgs : List (Arg ℤ)
  floatArgs : List (Arg ℚ)
  textArgs : List (Arg (List Char))

/-- `BasicArgParser::get` (lines 204-221): first argument of the vector with
the requested name, else `std::out_of_range` (`NameNotFoundError`). -/
def get (typeArgs : List (Arg α)) (name : List Char) : Except Err α :=
  match typeArgs.find? (fun a => a.name == name) with
  | some a => .ok a.value
  | none => .error .nameNotFound

/-- `BasicArgParser::getBool` (lines 249-253): the source reads
`return get(m_floatArgs, name);` — the float vector, not the bool vector —
and the `float` result is converted to `bool` by the usual C++
nonzero test. -/
def Parser.getBool (p : Parser) (name : List Char) : Except Err Bool :=
  (get p.floatArgs name).map (fun v => decide (v ≠ 0))

/-- `BasicArgParser::getFloat` (lines 259-263): `return get(m_floatArgs, name);`
(the only getter reading the vector its name promises; `getInt` also reads
`m_floatArgs`, and `getText` — `return get(m_floatArgs, name);` with a
`std::string` return type — would not even instantiate). -/
def Parser.getFloat (p : Parser) (name : List Char) : Except Err ℚ :=
  get p.floatArgs name

end Src

/-! ## Supporting lemmas -/

/-- Dropping as many characters as the matched `takeWhile` run is the same as
`dropWhile`; this connects the pointer arithmetic of the unsigned branch of
`argumentFromString` to the "first non-whitespace character" formulation. -/
theorem drop_length_takeWhile (p : Char → Bool) :
    ∀ cs : List Char, cs.drop (cs.takeWhile p).length = cs.dropWhile p
  | [] => rfl
  | c :: cs => by
    by_cases h : p c = true
    · simp [List.takeWhile_cons, List.dropWhile_cons, h, drop_length_takeWhile p cs]
    · simp [List.takeWhile_cons, List.dropWhile_cons, h]

/-! ## Claims -/

/-- **C1, counterexample.**  The claim says that for a value-bearing option a
token exactly equal to one of its spellings is *not* a match.  On the cited
code it is: with the single spelling `-c=`, the token `-c=` satisfies
`Option<T>::operator==` (whose length comparison is `>=`,
`src/include/stypox/argparser.hpp` line 1001) and is found by the `find_if`
of the header-only `Option::assign` (line 288 rejects only strictly shorter
tokens). -/
theorem c1_counterexample :
    H.matchesValue ["-c=".toList] "-c=".toList = true
    ∧ Hpp.findIfGE ["-c=".toList] "-c=".toList = some "-c=".toList := by decide

/-- **C1, amended.**  For every value-bearing option, a token exactly equal to
one of the accepted spellings *is* a match: both cited matchers compare the
lengths with `>=`, so an empty remainder does not prevent matching; the
strictly-longer requirement exists only at value extraction (see C5). -/
theorem c1_exact_token_matches (arguments : List (List Char)) (s : List Char)
    (h : s ∈ arguments) :
    H.matchesValue arguments s = true ∧ Hpp.findIfGE arguments s ≠ none := by
  have hp : (decide (s.length ≤ s.length) && (s.take s.length == s)) = true := by simp
  refine ⟨List.any_eq_true.mpr ⟨s, h, hp⟩, ?_⟩
  exact Option.isSome_iff_ne_none.mp (List.find?_isSome.mpr ⟨s, h, hp⟩)

/-- **C1, witness.** -/
theorem c1_exact_token_matches_witness :
    H.matchesValue ["-c=".toList, "--cake=".toList] "--cake=".toList = true
    ∧ Hpp.findIfGE ["-c=".toList, "--cake=".toList] "--cake=".toList ≠ none :=
  c1_exact_token_matches ["-c=".toList, "--cake=".toList] "--cake=".toList (by decide)

/-- **C2, counterexample.**  In the header-only variant, a `SwitchOption` over
a `bool` output initialised to `false` (its default), after
`assign("-h"); reset(); reset()`, has `seen = false` but `output = true`:
`OptionBase::reset` (lines 83-85) clears only `m_alreadySeen` and does not
restore the output variable, so the state differs from the freshly
constructed `⟨false, false⟩`. -/
theorem c2_counterexample :
    Hpp.reset (Hpp.reset
        (Hpp.switchAssign ["-h".toList] true ⟨false, false⟩ "-h".toList).snd)
      = (⟨false, true⟩ : Hpp.OptState Bool)
    ∧ (⟨false, true⟩ : Hpp.OptState Bool) ≠ ⟨false, false⟩ := by decide

/-- **C2, amended.**  In the `argparser.h` variant, whose `Option<T>` stores
its default value, `assign(x)` followed by `reset()` — and idempotently by a
second `reset()` — restores exactly the freshly constructed option
(seen flag `false`, current value equal to the declared default); in the
header-only variant `reset` clears only the seen flag and leaves the output
variable at its last assigned value (see the counterexample). -/
theorem c2_reset_restores_fresh {α : Type} (name : List Char)
    (arguments : List (List Char)) (defaultValue : Option α) (zero : α)
    (checker : α → Bool) (conv : List Char → Except Err α) (x : List Char) :
    (((H.Opt.construct name arguments defaultValue zero checker).assignValue
        conv x).snd).reset
      = H.Opt.construct name arguments defaultValue zero checker
    ∧ ((((H.Opt.construct name arguments defaultValue zero checker).assignValue
        conv x).snd).reset).reset
      = H.Opt.construct name arguments defaultValue zero checker := by
  have h : (((H.Opt.construct name arguments defaultValue zero checker).assignValue
      conv x).snd).reset
      = H.Opt.construct name arguments defaultValue zero checker := by
    simp only [H.Opt.construct, H.Opt.assignValue, H.Opt.reset]
    split
    · rfl
    · split
      · rfl
      · split <;> rfl
  exact ⟨h, by rw [h]; rfl⟩

/-- **C3, counterexample.**  An integer option (spelling `-n=`) fed the token
`-n=abc`: the conversion fails with `SyntaxError`, yet the seen flag ends up
`true`, because `Option::assign` calls `updateAlreadySeen` *before*
`argumentFromString` (lines 297-298); the claim says a failed conversion
leaves the flag `false`. -/
theorem c3_counterexample :
    Hpp.valueAssign ["-n=".toList]
        (Hpp.argumentFromStringSigned Hpp.intMin Hpp.intMax)
        ⟨false, 0⟩ "-n=abc".toList
      = (.error .syntaxError, ⟨true, 0⟩) := by decide

/-- **C3, amended.**  After an `assign` on a previously unseen option, the
seen flag is `true` iff the token matched one of the spellings (and so passed
the repeated-use check); the flag is set *before* value conversion runs, so
it is `true` regardless of whether the conversion succeeded or failed. -/
theorem c3_seen_iff_matched {α : Type} (arguments : List (List Char))
    (conv : List Char → Except Err α) (s : Hpp.OptState α) (arg : List Char)
    (h : s.alreadySeen = false) :
    ((Hpp.valueAssign arguments conv s arg).snd).alreadySeen
      = (Hpp.findIfGE arguments arg).isSome := by
  rw [Hpp.valueAssign]
  cases hm : Hpp.findIfGE arguments arg with
  | none => exact h
  | some sp =>
    rw [h]
    simp only [Bool.false_eq_true, if_false, Option.isSome_some]
    cases conv (arg.drop sp.length) <;> rfl

/-- **C3, witness.** -/
theorem c3_seen_iff_matched_witness :
    ((Hpp.valueAssign ["-n=".toList]
        (Hpp.argumentFromStringSigned Hpp.intMin Hpp.intMax)
        ⟨false, 0⟩ "-n=abc".toList).snd).alreadySeen
      = (Hpp.findIfGE ["-n=".toList] "-n=abc".toList).isSome :=
  c3_seen_iff_matched ["-n=".toList] _ ⟨false, 0⟩ "-n=abc".toList rfl

/-- **C4, counterexample.**  An *optional* option (a default was supplied, so
`m_required` is `false`) that was never assigned, with default value `5` and
validity predicate `v == 0`: `checkValidity` fails with `InvalidValueError`
in both cited variants, because the predicate is applied to the stored
(default) value unconditionally; the claim says it always succeeds. -/
theorem c4_counterexample :
    (H.Opt.construct "cake".toList ["-c=".toList] (some (5 : ℕ)) 0
        (fun v => v == 0)).checkValidity
      = .error .invalidValue
    ∧ Hpp.checkValidity false (fun v : ℕ => v == 0) ⟨false, 5⟩
      = .error .invalidValue := by decide

/-- **C4, amended.**  `checkValidity` applies the validity predicate to the
current value unconditionally, whether or not the option was ever assigned:
an optional option passes iff its current (possibly never-touched default)
value satisfies the predicate. -/
theorem c4_optional_validity {α : Type} (o : H.Opt α) (h : o.required = false) :
    o.checkValidity
      = if o.validityChecker o.value then .ok () else .error .invalidValue := by
  rw [H.Opt.checkValidity, h]
  cases hv : o.validityChecker o.value <;> simp [hv]

/-- **C4, witness.** -/
theorem c4_optional_validity_witness :
    (H.Opt.construct "cake".toList ["-c=".toList] (some (0 : ℕ)) 0
        (fun v => v == 0)).checkValidity = .ok () := by
  simpa using c4_optional_validity
    (H.Opt.construct "cake".toList ["-c=".toList] (some (0 : ℕ)) 0
      (fun v => v == 0)) rfl

/-- **C5, counterexample.**  In the header-only variant there is no
`MissingValueError` at all: a text option with spelling `-c=` fed the exactly
equal token `-c=` matches (`>=` comparison), and the *empty* remainder is
delegated to `argumentFromString`, which for a text type stores it verbatim —
the assign succeeds and stores the empty string, overwriting the previous
value `"x"`. -/
theorem c5_counterexample :
    Hpp.valueAssign ["-c=".toList] (fun cs => (.ok cs : Except Err (List Char)))
        ⟨false, "x".toList⟩ "-c=".toList
      = (.ok true, ⟨true, []⟩) := by decide

/-- **C5, amended.**  In the `argparser.h` variants, `operator=` on a token
whose value extraction yields an empty remainder (no spelling is a *strict*
prefix of the token) fails with `MissingValueError`, without invoking the
conversion and without storing any value; the header-only variant instead
delegates the empty remainder to conversion (see the counterexample). -/
theorem c5_missing_value {α : Type} (o : H.Opt α)
    (conv : List Char → Except Err α) (arg : List Char)
    (hseen : o.alreadySeen = false)
    (hempty : H.extractValue o.arguments arg = []) :
    (o.assignValue conv arg).fst = .error .missingValue
    ∧ ((o.assignValue conv arg).snd).value = o.value := by
  rw [H.Opt.assignValue, hseen]
  simp [hempty]

/-- **C5, witness.** -/
theorem c5_missing_value_witness :
    ((H.Opt.construct "cake".toList ["-c=".toList] (some ([] : List Char)) []
        (fun _ => true)).assignValue (fun cs => .ok cs) "-c=".toList).fst
      = .error .missingValue
    ∧ (((H.Opt.construct "cake".toList ["-c=".toList] (some ([] : List Char)) []
        (fun _ => true)).assignValue (fun cs => .ok cs) "-c=".toList).snd).value
      = (H.Opt.construct "cake".toList ["-c=".toList] (some ([] : List Char)) []
        (fun _ => true)).value :=
  c5_missing_value _ _ "-c=".toList rfl (by decide)

set_option maxRecDepth 8000 in
/-- **C6, code bug.**  The floating branch of `argumentFromString` range-checks
with `result < std::numeric_limits<T>::min()` (line 241), but for floating
types `min()` is the smallest *positive* normal value (`2^-126` for `float`),
not the lowest representable value.  Consequently the fully consumed, exactly
representable literals `-1` and `0` are rejected with `RangeError` even
though `-FLT_MAX < -1 < 0 < FLT_MAX` (third and fourth conjuncts), while a
positive in-range literal such as `1.5` is accepted.  The claim (and the
README's own "does not overflow/underflow" contract) requires zero and
negative representable values to be accepted. -/
theorem c6_code_bug :
    Hpp.argumentFromStringFloat Hpp.fltMinPos Hpp.fltMax "-1".toList
      = .error .rangeError
    ∧ Hpp.argumentFromStringFloat Hpp.fltMinPos Hpp.fltMax "0".toList
      = .error .rangeError
    ∧ Dec.blt ⟨-((2 ^ 24 - 1) * 2 ^ 104), 0⟩ ⟨-1, 0⟩ = true
    ∧ Dec.blt ⟨-1, 0⟩ Hpp.fltMax = true
    ∧ Hpp.argumentFromStringFloat Hpp.fltMinPos Hpp.fltMax "1.5".toList
      = .ok ⟨15, 1⟩ := by decide

/-- **C7, counterexample.**  The claim quantifies over "every unsigned integer
destination"; in the `argparser.h` variant the integral conversion of
`operator=` goes through the *signed* `std::stoll` and then the C++ integral
conversion into the unsigned destination, which wraps modulo `2^w`: for a
32-bit unsigned destination, the fragment `-5` is stored as `2^32 - 5`, with
no `RangeError`. -/
theorem c7_counterexample :
    H.uintConv 32 "-5".toList = .ok 4294967291 := by decide

/-- **C7, amended.**  In `argumentFromString` (the header-only variant), an
unsigned destination rejects every fragment whose first non-whitespace
character is `-` with `RangeError` before any numeric conversion, regardless
of the destination range; the `argparser.h` variant instead wraps the signed
value modulo `2^w` (see the counterexample). -/
theorem c7_unsigned_minus_rejected (lo hi : ℕ) (argValue : List Char)
    (h : (argValue.dropWhile isCSpace).head? = some '-') :
    Hpp.argumentFromStringUnsigned lo hi argValue = .error .rangeError := by
  rw [Hpp.argumentFromStringUnsigned]
  simp only [drop_length_takeWhile]
  cases hd : argValue.dropWhile isCSpace with
  | nil => rw [hd] at h; cases h
  | cons c t =>
    rw [hd] at h
    have hc : c = '-' := by
      simpa using h
    rw [hc]
    rfl

/-- **C7, witness.** -/
theorem c7_unsigned_minus_rejected_witness :
    Hpp.argumentFromStringUnsigned 0 255 " -5".toList = .error .rangeError :=
  c7_unsigned_minus_rejected 0 255 " -5".toList (by decide)

set_option maxRecDepth 8000 in
/-- **C8, confirmed (Scenario C).**  A single float option named `cake` with
spelling `-c=` over the `float` limits: parsing `["-c=1.5"]` with the
program-path flag off succeeds and stores `1.5` (the stored exact decimal
`⟨15, 1⟩`, whose rational value is `3/2`, second conjunct) with the seen flag
set, and `checkValidity` with the predicate `0 ≤ v ≤ 1` then fails with
`InvalidValueError`.  The validity predicate is no argument of `parse` at
all — in the source it is read only by `checkValidity` (line 306) — so it
cannot be evaluated during parsing. -/
theorem c8_scenario_c :
    Hpp.parse ["-c=".toList] (Hpp.argumentFromStringFloat Hpp.fltMinPos Hpp.fltMax)
        ⟨false, ⟨5, 1⟩⟩ false ["-c=1.5".toList]
      = (.ok (), ⟨true, ⟨15, 1⟩⟩)
    ∧ (⟨15, 1⟩ : Dec).toRat = Rat.divInt 3 2
    ∧ Hpp.checkValidity false (fun v => !(Dec.blt v ⟨0, 0⟩) && !(Dec.blt ⟨1, 0⟩ v))
        ⟨true, ⟨15, 1⟩⟩
      = .error .invalidValue := by decide

/-- **C9, code bug.**  In `src/src/argparser.h` all four accessors read
`m_floatArgs` (lines 249-268, a copy-paste slip: `getBool` is
`return get(m_floatArgs, name);`).  With a declared bool option `help` of
current value `true` and no float options, `getBool("help")` throws the
not-found error instead of returning `true`, although a lookup in the bool
vector (second conjunct, as the later variants and the per-accessor error
messages intend) finds it. -/
theorem c9_code_bug :
    Src.Parser.getBool ⟨[⟨"help".toList, true⟩], [], [], []⟩ "help".toList
      = .error .nameNotFound
    ∧ Src.get [(⟨"help".toList, true⟩ : Src.Arg Bool)] "help".toList
      = .ok true := by decide

/-- **C10, confirmed.**  For each of the three option kinds of the header-only
variant — switch, value-bearing, custom-converted — a token matching none of
the accepted spellings makes `assign` return `false` and leaves the state
(the seen flag and the current value, i.e. the whole mutable state, so also
the behaviour of all later calls) exactly unchanged. -/
theorem c10_no_match_frame {α : Type} (arguments : List (List Char))
    (valueWhenSet : α) (conv functor : List Char → Except Err α)
    (s : Hpp.OptState α) (arg : List Char) :
    (arguments.contains arg = false →
      Hpp.switchAssign arguments valueWhenSet s arg = (.ok false, s))
    ∧ (Hpp.findIfGE arguments arg = none →
      Hpp.valueAssign arguments conv s arg = (.ok false, s))
    ∧ (Hpp.findIfGE arguments arg = none →
      Hpp.manualAssign arguments functor s arg = (.ok false, s)) := by
  refine ⟨fun h => ?_, fun h => ?_, fun h => ?_⟩
  · rw [Hpp.switchAssign, h]; rfl
  · rw [Hpp.valueAssign, h]
  · rw [Hpp.manualAssign, h]

/-- **C10, witness.** -/
theorem c10_no_match_frame_witness :
    Hpp.switchAssign ["-c=".toList] true ⟨false, false⟩ "-x".toList
      = (.ok false, ⟨false, false⟩)
    ∧ Hpp.valueAssign ["-c=".toList] (fun _ => .ok true) ⟨false, false⟩ "-x".toList
      = (.ok false, ⟨false, false⟩)
    ∧ Hpp.manualAssign ["-c=".toList] (fun _ => .ok true) ⟨false, false⟩ "-x".toList
      = (.ok false, ⟨false, false⟩) :=
  ⟨(c10_no_match_frame ["-c=".toList] true (fun _ => .ok true) (fun _ => .ok true)
      ⟨false, false⟩ "-x".toList).1 (by decide),
   (c10_no_match_frame ["-c=".toList] true (fun _ => .ok true) (fun _ => .ok true)
      ⟨false, false⟩ "-x".toList).2.1 (by decide),
   (c10_no_match_frame ["-c=".toList] true (fun _ => .ok true) (fun _ => .ok true)
      ⟨false, false⟩ "-x".toList).2.2 (by decide)⟩

end ArgParserModel
